import Mathlib

/-!
Shallow embedding of the Redux-style store engine found in this repository:
the store constructor with its dispatch state machine and copy-on-write
listener registry (src/src/compose.js, second part), the function composer
(src/src/compose.js, first part), the middleware applicator
(src/src/applyMiddleware.js), the reserved action types (src/unnamed/part_000)
and the plain-object test (src/unnamed/part_001).
-/

namespace Redux

/--
Model of a JavaScript value in the places dispatch and isPlainObject inspect
it.  `typeofIsObject` is the result of the test `typeof a === 'object'`
(which is true for objects and for null alike), `isNull` is `a === null`,
`protoChain` lists the identities of the prototype objects above the value
(`Object.getPrototypeOf(a)` first), ending just before the terminating null,
and `type` is the value's `type` field, `none` standing for undefined.
JavaScript prototype chains are acyclic so the identities in `protoChain` of a
real value are pairwise distinct; that assumption enters only as an explicit
hypothesis where it is needed.
-/
structure Action (τ : Type) where
  typeofIsObject : Bool
  isNull : Bool
  protoChain : List Nat
  type : Option τ
deriving DecidableEq, Repr

/--
src/unnamed/part_001 isPlainObject: returns false when the value is not a
non-null object; otherwise walks `proto` to the top of the prototype chain
(the last object before null, or the value itself when its own prototype is
already null) and compares `Object.getPrototypeOf(obj)` with that top object
by reference identity.  An empty `protoChain` makes the walk stay at the value
itself, and the final comparison `null === obj` is false since the value is
not null.
-/
def isPlainObject {τ : Type} (a : Action τ) : Bool :=
  if !a.typeofIsObject || a.isNull then false
  else
    match a.protoChain with
    | [] => false
    | p :: rest => some p == (p :: rest).getLast?

/--
The closure state of the store constructor in src/src/compose.js:
`currentState`, the listener heap together with `curId` and `nextId` playing
the parts of the array references `currentListeners` and `nextListeners`
(two equal indices model the two variables aliasing one and the same array
object), and the `isDispatching` flag.  Arrays live in `heap`; mutating an
array in place is `List.set` at its index, so a mutation is visible through
every reference holding that index, exactly as for JavaScript array objects.
-/
structure Store (σ L : Type) where
  currentState : σ
  heap : List (List L)
  curId : Nat
  nextId : Nat
  isDispatching : Bool
deriving DecidableEq, Repr

variable {σ L τ ε : Type}

/-- The array a heap index denotes (a dangling index denotes the empty array;
well-formed stores never have one). -/
def listenersAt (s : Store σ L) (i : Nat) : List L :=
  s.heap.getD i []

/-- The array currently referenced by `currentListeners`. -/
def currentListeners (s : Store σ L) : List L :=
  listenersAt s s.curId

/-- The array currently referenced by `nextListeners`. -/
def nextListeners (s : Store σ L) : List L :=
  listenersAt s s.nextId

/-- Both listener references point at arrays that exist in the heap. -/
def StoreWF (s : Store σ L) : Prop :=
  s.curId < s.heap.length ∧ s.nextId < s.heap.length

instance (s : Store σ L) : Decidable (StoreWF s) := by
  unfold StoreWF; infer_instance

/--
src/src/compose.js ensureCanMutateNextListeners: when `nextListeners` and
`currentListeners` alias the same array, point `nextListeners` at a fresh
shallow copy (a new heap slot holding the same elements) so that pending
notification passes keep iterating the old array.
-/
def ensureCanMutateNextListeners (s : Store σ L) : Store σ L :=
  if s.nextId = s.curId then
    { s with heap := s.heap ++ [currentListeners s], nextId := s.heap.length }
  else s

/-- In-place update of the array referenced by `nextListeners`. -/
def setNextListeners (s : Store σ L) (v : List L) : Store σ L :=
  { s with heap := s.heap.set s.nextId v }

/-- The mutation performed by subscribe once its guards have passed:
`ensureCanMutateNextListeners(); nextListeners.push(listener)`. -/
def subscribeCore (l : L) (s : Store σ L) : Store σ L :=
  let s1 := ensureCanMutateNextListeners s
  setNextListeners s1 (nextListeners s1 ++ [l])

/--
JavaScript `xs.splice(xs.indexOf(l), 1)` as used by unsubscribe: remove the
first occurrence of `l`; when `l` is absent, `indexOf` yields -1 and
`splice(-1, 1)` removes the last element (of a nonempty array).
-/
def spliceOut [DecidableEq L] (l : L) (xs : List L) : List L :=
  match xs.findIdx? (· == l) with
  | some j => xs.take j ++ xs.drop (j + 1)
  | none => xs.dropLast

/-- The mutation performed by unsubscribe once its guards have passed:
`ensureCanMutateNextListeners(); nextListeners.splice(indexOf, 1)`. -/
def unsubscribeCore [DecidableEq L] (l : L) (s : Store σ L) : Store σ L :=
  let s1 := ensureCanMutateNextListeners s
  setNextListeners s1 (spliceOut l (nextListeners s1))

/-- The errors thrown by getState, subscribe and unsubscribe. -/
inductive StoreErr where
  | getStateWhileDispatching
  | subscribeWhileDispatching
  | unsubscribeWhileDispatching
deriving DecidableEq, Repr

/-- The errors a dispatch call can propagate: the three argument and
reentrancy guards, and an error raised by the reducer itself. -/
inductive DispatchErr (ε : Type) where
  | actionNotPlainObject
  | actionTypeUndefined
  | reducersMayNotDispatch
  | reducerRaised (e : ε)
deriving DecidableEq, Repr

/-- src/src/compose.js getState: throws while the reducer is executing,
otherwise returns the current state. -/
def getState (s : Store σ L) : Except StoreErr σ :=
  if s.isDispatching then .error .getStateWhileDispatching
  else .ok s.currentState

/-- src/src/compose.js subscribe, for a callable listener: throws while the
reducer is executing, otherwise performs the copy-on-write push.  The
`isSubscribed` flag of the returned unsubscribe closure starts out true and
is threaded explicitly through `unsubscribe`. -/
def subscribe (l : L) (s : Store σ L) : Except StoreErr (Store σ L) :=
  if s.isDispatching then .error .subscribeWhileDispatching
  else .ok (subscribeCore l s)

/--
The unsubscribe closure returned by subscribe, with its captured
`isSubscribed` flag made an explicit argument and returned updated: a call
with the flag already cleared returns immediately (before the dispatching
check), a first call while the reducer is executing throws, and a first call
otherwise clears the flag and performs the copy-on-write removal.
-/
def unsubscribe [DecidableEq L] (isSubscribed : Bool) (l : L) (s : Store σ L) :
    Except StoreErr (Bool × Store σ L) :=
  if isSubscribed = false then .ok (isSubscribed, s)
  else if s.isDispatching then .error .unsubscribeWhileDispatching
  else .ok (false, unsubscribeCore l s)

/-- A registry edit a listener may perform while a notification pass is
running: subscribing a new listener or (first-time) unsubscribing one. -/
inductive StoreOp (L : Type) where
  | sub (l : L)
  | unsub (l : L)
deriving DecidableEq, Repr

/-- Run one listener-initiated edit through the guarded API (the guards never
fire during a notification pass, where the dispatch flag is clear). -/
def applyOp [DecidableEq L] (op : StoreOp L) (s : Store σ L) : Store σ L :=
  match op with
  | .sub l =>
    match subscribe l s with
    | .ok s1 => s1
    | .error _ => s
  | .unsub l =>
    match unsubscribe true l s with
    | .ok p => p.2
    | .error _ => s

/-- Run a sequence of listener-initiated edits in order. -/
def applyOps [DecidableEq L] (ops : List (StoreOp L)) (s : Store σ L) : Store σ L :=
  ops.foldl (fun t op => applyOp op t) s

/--
The notification loop of dispatch: `for (i = 0; i < listeners.length; i++)`
over the array `currentListeners` was aliased to at the snapshot point,
reading the array through the heap at every step, so an in-place mutation of
that array would be seen mid-loop (none ever happens: that is the frozen
snapshot theorem).  Each invoked listener may edit the registry through
`eff`.  `fuel` bounds the iteration count; dispatch passes the array length
at loop entry, which the loop never outruns because the array is never
mutated.  Returns the final store and the listeners invoked, in order.
-/
def notify [DecidableEq L] (eff : L → List (StoreOp L)) :
    Nat → Nat → Store σ L → Store σ L × List L
  | 0, _, s => (s, [])
  | fuel + 1, i, s =>
    let arr := currentListeners s
    if h : i < arr.length then
      let l := arr.get ⟨i, h⟩
      let s1 := applyOps (eff l) s
      let done := notify eff fuel (i + 1) s1
      (done.1, l :: done.2)
    else (s, [])

/--
src/src/compose.js dispatch: reject a non-plain-object action, an action with
undefined type, and a reentrant call; then set the dispatch flag, run the
reducer, and through the finally clause clear the flag whether the reducer
returned or raised.  On normal return adopt the new state, alias
`currentListeners` to `nextListeners` (the snapshot point), invoke every
listener of that array in order, and return the action.  The result is the
returned-or-raised outcome, the closure state after the call, and the
listeners invoked.
-/
def dispatch [DecidableEq L] (red : σ → Action τ → Except ε σ)
    (eff : L → List (StoreOp L)) (action : Action τ) (s : Store σ L) :
    Except (DispatchErr ε) (Action τ) × Store σ L × List L :=
  if isPlainObject action = false then
    (.error .actionNotPlainObject, s, [])
  else if action.type.isNone then
    (.error .actionTypeUndefined, s, [])
  else if s.isDispatching then
    (.error .reducersMayNotDispatch, s, [])
  else
    let s1 := { s with isDispatching := true }
    match red s1.currentState action with
    | .error e => (.error (.reducerRaised e), { s1 with isDispatching := false }, [])
    | .ok newState =>
      let s2 := { s1 with currentState := newState, isDispatching := false }
      let s3 := { s2 with curId := s2.nextId }
      let done := notify eff (currentListeners s3).length 0 s3
      (.ok action, done.1, done.2)

/--
The reserved INIT action dispatched by the store constructor
(src/unnamed/part_000 ActionTypes.INIT): an object literal, hence a non-null
object with exactly Object.prototype above it, whose `type` is the reserved
INIT token.
-/
def initAction (initType : τ) : Action τ :=
  { typeofIsObject := true, isNull := false, protoChain := [0], type := some initType }

/--
src/src/compose.js createStore on the enhancer-free path, for a callable
reducer: store the reducer and preloaded state, create the empty listener
array with both references aliasing it, clear the dispatch flag, and dispatch
the reserved INIT action once before handing the store out; an error raised
by the reducer on that dispatch propagates to the caller.
-/
def createStore [DecidableEq L] (red : σ → Action τ → Except ε σ)
    (preloadedState : σ) (initType : τ) : Except (DispatchErr ε) (Store σ L) :=
  let s0 : Store σ L :=
    { currentState := preloadedState, heap := [[]], curId := 0, nextId := 0,
      isDispatching := false }
  match dispatch red (fun _ => []) (initAction initType) s0 with
  | (.ok _, s1, _) => .ok s1
  | (.error e, _, _) => .error e

/--
src/src/compose.js compose, at the type of unary JavaScript functions: zero
functions give the identity, one gives that function, and more are folded by
`funcs.reduce((a, b) => (...args) => a(b(...args)))`.
-/
def compose {α : Type} : List (α → α) → α → α
  | [] => fun arg => arg
  | [f] => f
  | f :: g :: rest => (g :: rest).foldl (fun a b => fun args => a (b args)) f

/--
src/src/compose.js compose again, at the type of variadic JavaScript
functions (argument lists over a value type `V`): the zero-function case
`arg => arg` returns its first argument (undefined — the `default` value —
when called with none), and the reduce step spreads the composed function's
arguments into the right operand and passes its single result on to the left
operand, so only the rightmost function of a chain sees more than one
argument.
-/
def composeV {V : Type} [Inhabited V] : List (List V → V) → List V → V
  | [] => fun args => args.headD default
  | [f] => f
  | f :: g :: rest => (g :: rest).foldl (fun a b => fun args => a [b args]) f

/-- The `{ getState, dispatch }` object handed to every middleware factory by
applyMiddleware. -/
structure MiddlewareAPI (σ δ : Type) where
  getState : Unit → σ
  dispatch : δ

/--
src/src/applyMiddleware.js, the chain-building core (lines 34-37): apply
every middleware factory to the shared API object, then compose the resulting
chain links right-to-left over the raw store dispatch, producing the enhanced
dispatch.  The surrounding store construction and the placeholder dispatch
that throws during construction are not modeled; `middlewareAPI` is the
constructed API object and `storeDispatch` the raw store dispatch.
-/
def applyMiddleware {σ δ : Type} (middlewares : List (MiddlewareAPI σ δ → δ → δ))
    (middlewareAPI : MiddlewareAPI σ δ) (storeDispatch : δ) : δ :=
  let chain := middlewares.map (fun middleware => middleware middlewareAPI)
  compose chain storeDispatch

/-- Events recorded by the tracing middleware used to check onion ordering. -/
inductive TraceEvt where
  | pre (i : Nat)
  | post (i : Nat)
  | base
deriving DecidableEq, Repr

/-- A dispatch function over traces: it appends to a trace accumulator. -/
abbrev TraceDispatch := List TraceEvt → List TraceEvt

/-- A middleware that records a pre event, calls `next`, then records a post
event — the standard onion-ordering probe. -/
def tagMiddleware {σ : Type} (i : Nat) :
    MiddlewareAPI σ TraceDispatch → TraceDispatch → TraceDispatch :=
  fun _ next => fun t => next (t ++ [.pre i]) ++ [.post i]

/-- The raw store dispatch of the tracing model: records the base event. -/
def baseDispatch : TraceDispatch :=
  fun t => t ++ [.base]

/-! ## Facts about the copy-on-write listener registry -/

theorem ensure_curId (s : Store σ L) :
    (ensureCanMutateNextListeners s).curId = s.curId := by
  unfold ensureCanMutateNextListeners
  split <;> rfl

theorem ensure_currentState (s : Store σ L) :
    (ensureCanMutateNextListeners s).currentState = s.currentState := by
  unfold ensureCanMutateNextListeners
  split <;> rfl

theorem ensure_isDispatching (s : Store σ L) :
    (ensureCanMutateNextListeners s).isDispatching = s.isDispatching := by
  unfold ensureCanMutateNextListeners
  split <;> rfl

theorem ensure_listenersAt (s : Store σ L) (j : Nat) (hj : j < s.heap.length) :
    listenersAt (ensureCanMutateNextListeners s) j = listenersAt s j := by
  unfold ensureCanMutateNextListeners
  split
  · simp only [listenersAt]
    exact List.getD_append _ _ _ _ hj
  · rfl

theorem ensure_ne (s : Store σ L) (h : StoreWF s) :
    (ensureCanMutateNextListeners s).nextId ≠ (ensureCanMutateNextListeners s).curId := by
  unfold ensureCanMutateNextListeners
  split
  · exact Nat.ne_of_gt h.1
  · next hne => exact hne

theorem ensure_wf (s : Store σ L) (h : StoreWF s) :
    StoreWF (ensureCanMutateNextListeners s) := by
  obtain ⟨h1, h2⟩ := h
  unfold ensureCanMutateNextListeners
  split
  · refine ⟨?_, ?_⟩
    · simp
      omega
    · simp
  · exact ⟨h1, h2⟩

theorem ensure_nextListeners (s : Store σ L) (_h : StoreWF s) :
    nextListeners (ensureCanMutateNextListeners s) = nextListeners s := by
  unfold ensureCanMutateNextListeners
  split
  · next heq =>
    simp only [nextListeners, listenersAt]
    rw [List.getD_append_right _ _ _ _ (Nat.le_refl _)]
    simp [currentListeners, listenersAt, heq]
  · rfl

theorem setNext_listenersAt_ne (s : Store σ L) (v : List L) (j : Nat)
    (hj : s.nextId ≠ j) :
    listenersAt (setNextListeners s v) j = listenersAt s j := by
  simp only [setNextListeners, listenersAt, List.getD_eq_getElem?_getD]
  rw [List.getElem?_set_ne hj]

theorem setNext_nextListeners (s : Store σ L) (v : List L)
    (h : s.nextId < s.heap.length) :
    nextListeners (setNextListeners s v) = v := by
  simp only [setNextListeners, nextListeners, listenersAt, List.getD_eq_getElem?_getD]
  rw [List.getElem?_set_self h]
  rfl

theorem setNext_wf (s : Store σ L) (v : List L) (h : StoreWF s) :
    StoreWF (setNextListeners s v) := by
  unfold setNextListeners StoreWF
  simpa using h

/-- Both core mutations share one shape: a copy-on-write check followed by an
in-place update of the next-listener array with a new contents computed from
the old one. -/
theorem mutation_preserves (s : Store σ L) (f : List L → List L) (h : StoreWF s) :
    currentListeners (setNextListeners (ensureCanMutateNextListeners s)
        (f (nextListeners (ensureCanMutateNextListeners s)))) = currentListeners s ∧
    nextListeners (setNextListeners (ensureCanMutateNextListeners s)
        (f (nextListeners (ensureCanMutateNextListeners s)))) = f (nextListeners s) ∧
    StoreWF (setNextListeners (ensureCanMutateNextListeners s)
        (f (nextListeners (ensureCanMutateNextListeners s)))) ∧
    (setNextListeners (ensureCanMutateNextListeners s)
        (f (nextListeners (ensureCanMutateNextListeners s)))).curId = s.curId ∧
    (setNextListeners (ensureCanMutateNextListeners s)
        (f (nextListeners (ensureCanMutateNextListeners s)))).isDispatching
      = s.isDispatching ∧
    (setNextListeners (ensureCanMutateNextListeners s)
        (f (nextListeners (ensureCanMutateNextListeners s)))).currentState
      = s.currentState := by
  have hwf1 := ensure_wf s h
  have hne := ensure_ne s h
  refine ⟨?_, ?_, ?_, ?_, ?_, ?_⟩
  · show listenersAt _ _ = _
    rw [show (setNextListeners (ensureCanMutateNextListeners s)
        (f (nextListeners (ensureCanMutateNextListeners s)))).curId
        = (ensureCanMutateNextListeners s).curId from rfl]
    rw [setNext_listenersAt_ne _ _ _ hne]
    rw [ensure_curId]
    have := ensure_listenersAt s s.curId h.1
    rw [ensure_curId] at *
    exact this
  · rw [setNext_nextListeners _ _ hwf1.2, ensure_nextListeners s h]
  · exact setNext_wf _ _ hwf1
  · show (ensureCanMutateNextListeners s).curId = s.curId
    exact ensure_curId s
  · exact ensure_isDispatching s
  · exact ensure_currentState s

theorem subscribeCore_spec (l : L) (s : Store σ L) (h : StoreWF s) :
    currentListeners (subscribeCore l s) = currentListeners s ∧
    nextListeners (subscribeCore l s) = nextListeners s ++ [l] ∧
    StoreWF (subscribeCore l s) ∧
    (subscribeCore l s).curId = s.curId ∧
    (subscribeCore l s).isDispatching = s.isDispatching ∧
    (subscribeCore l s).currentState = s.currentState :=
  mutation_preserves s (fun xs => xs ++ [l]) h

theorem unsubscribeCore_spec [DecidableEq L] (l : L) (s : Store σ L) (h : StoreWF s) :
    currentListeners (unsubscribeCore l s) = currentListeners s ∧
    nextListeners (unsubscribeCore l s) = spliceOut l (nextListeners s) ∧
    StoreWF (unsubscribeCore l s) ∧
    (unsubscribeCore l s).curId = s.curId ∧
    (unsubscribeCore l s).isDispatching = s.isDispatching ∧
    (unsubscribeCore l s).currentState = s.currentState :=
  mutation_preserves s (fun xs => spliceOut l xs) h

/-- Removing a present element with indexOf and splice removes exactly its
first occurrence. -/
theorem spliceOut_of_mem [DecidableEq L] (l : L) (xs : List L) (h : l ∈ xs) :
    spliceOut l xs = xs.erase l := by
  induction xs with
  | nil => cases h
  | cons x xs ih =>
    by_cases hx : x = l
    · subst hx
      simp [spliceOut, List.findIdx?_cons]
    · have hmem : l ∈ xs := by
        cases h with
        | head => exact absurd rfl hx
        | tail _ h2 => exact h2
      have hbx : (x == l) = false := beq_eq_false_iff_ne.mpr hx
      obtain ⟨j, hj⟩ : ∃ j, xs.findIdx? (· == l) = some j :=
        ⟨_, List.findIdx?_eq_some_of_exists
          (p := fun y => y == l) ⟨l, hmem, beq_self_eq_true l⟩⟩
      have ihe := ih hmem
      unfold spliceOut at ihe ⊢
      rw [hj] at ihe
      rw [List.erase_cons_tail (by simp [hbx])]
      simp only [List.findIdx?_cons, hbx, if_false, List.findIdx?_succ, hj,
        Option.map_some', List.take_succ_cons, List.drop_succ_cons]
      simpa using congrArg (x :: ·) ihe

/-- One listener-initiated edit never mutates the array an in-flight
notification pass is iterating (it is copied first when the references
alias), and it preserves the registry invariants, the current-listener
reference, the dispatch flag and the state. -/
theorem applyOp_spec [DecidableEq L] (op : StoreOp L) (s : Store σ L) (h : StoreWF s) :
    currentListeners (applyOp op s) = currentListeners s ∧
    StoreWF (applyOp op s) ∧
    (applyOp op s).curId = s.curId ∧
    (applyOp op s).isDispatching = s.isDispatching ∧
    (applyOp op s).currentState = s.currentState := by
  cases op with
  | sub l =>
    by_cases hd : s.isDispatching
    · have hid : applyOp (StoreOp.sub l) s = s := by
        simp [applyOp, subscribe, hd]
      rw [hid]
      exact ⟨rfl, h, rfl, rfl, rfl⟩
    · have hred : applyOp (StoreOp.sub l) s = subscribeCore l s := by
        simp [applyOp, subscribe, hd]
      rw [hred]
      obtain ⟨c1, c2, c3, c4, c5, c6⟩ := subscribeCore_spec l s h
      exact ⟨c1, c3, c4, c5, c6⟩
  | unsub l =>
    by_cases hd : s.isDispatching
    · have hid : applyOp (StoreOp.unsub l) s = s := by
        simp [applyOp, unsubscribe, hd]
      rw [hid]
      exact ⟨rfl, h, rfl, rfl, rfl⟩
    · have hred : applyOp (StoreOp.unsub l) s = unsubscribeCore l s := by
        simp [applyOp, unsubscribe, hd]
      rw [hred]
      obtain ⟨c1, c2, c3, c4, c5, c6⟩ := unsubscribeCore_spec l s h
      exact ⟨c1, c3, c4, c5, c6⟩

/-- A whole sequence of listener-initiated edits never mutates the array an
in-flight notification pass is iterating. -/
theorem applyOps_spec [DecidableEq L] (ops : List (StoreOp L)) (s : Store σ L)
    (h : StoreWF s) :
    currentListeners (applyOps ops s) = currentListeners s ∧
    StoreWF (applyOps ops s) ∧
    (applyOps ops s).curId = s.curId ∧
    (applyOps ops s).isDispatching = s.isDispatching := by
  induction ops generalizing s with
  | nil => exact ⟨rfl, h, rfl, rfl⟩
  | cons op ops ih =>
    obtain ⟨c1, c2, c3, c4, c5⟩ := applyOp_spec op s h
    obtain ⟨d1, d2, d3, d4⟩ := ih (applyOp op s) c2
    exact ⟨d1.trans c1, d2, d3.trans c3, d4.trans c4⟩

/-- The notification pass: whatever registry edits the invoked listeners
perform, the pass iterates the frozen snapshot array — which is never mutated
under it — and the final store is the loop-entry store with every invoked
listener's edits applied in order. -/
theorem notify_spec [DecidableEq L] (eff : L → List (StoreOp L)) :
    ∀ (fuel i : Nat) (s : Store σ L), StoreWF s →
      notify eff fuel i s
        = ((((currentListeners s).drop i).take fuel).foldl
             (fun t l => applyOps (eff l) t) s,
           ((currentListeners s).drop i).take fuel)
  | 0, i, s, h => by simp [notify]
  | fuel + 1, i, s, h => by
    by_cases hlt : i < (currentListeners s).length
    · have heq : notify eff (fuel + 1) i s
          = ((notify eff fuel (i + 1)
                (applyOps (eff ((currentListeners s).get ⟨i, hlt⟩)) s)).1,
             (currentListeners s).get ⟨i, hlt⟩
               :: (notify eff fuel (i + 1)
                (applyOps (eff ((currentListeners s).get ⟨i, hlt⟩)) s)).2) := by
        conv_lhs => unfold notify
        simp [hlt]
      obtain ⟨c1, c2, c3, c4⟩ :=
        applyOps_spec (eff ((currentListeners s).get ⟨i, hlt⟩)) s h
      rw [heq, notify_spec eff fuel (i + 1) _ c2, c1,
        List.drop_eq_getElem_cons hlt, List.take_succ_cons, List.foldl_cons]
      rfl
    · have heq : notify eff (fuel + 1) i s = (s, []) := by
        conv_lhs => unfold notify
        simp [hlt]
      have hdrop : (currentListeners s).drop i = [] :=
        List.drop_eq_nil_of_le (Nat.le_of_not_lt hlt)
      rw [heq, hdrop]
      simp

/-- Successful dispatch, computed: the reducer's value becomes the new state,
the snapshot point aliases the two listener references, the frozen pre-edit
snapshot is invoked in order, and every invoked listener's edits are applied
to the registry in order. -/
theorem dispatch_ok [DecidableEq L] (red : σ → Action τ → Except ε σ)
    (eff : L → List (StoreOp L)) (a : Action τ) (s : Store σ L) (ns : σ)
    (hwf : StoreWF s) (hflag : s.isDispatching = false)
    (hplain : isPlainObject a = true) (htype : a.type.isSome = true)
    (hred : red s.currentState a = .ok ns) :
    dispatch red eff a s
      = (.ok a,
         (nextListeners s).foldl (fun t l => applyOps (eff l) t)
           { currentState := ns, heap := s.heap, curId := s.nextId,
             nextId := s.nextId, isDispatching := false },
         nextListeners s) := by
  have hnone : a.type.isNone = false := by
    cases h2 : a.type with
    | none => rw [h2] at htype; simp at htype
    | some v => simp [h2]
  have hwf3 : StoreWF ({ currentState := ns, heap := s.heap, curId := s.nextId,
                         nextId := s.nextId, isDispatching := false } : Store σ L) :=
    ⟨hwf.2, hwf.2⟩
  have hn := notify_spec eff
    (currentListeners ({ currentState := ns, heap := s.heap, curId := s.nextId,
                         nextId := s.nextId, isDispatching := false } : Store σ L)).length
    0 _ hwf3
  simp only [List.drop_zero, List.take_length] at hn
  simp [dispatch, hplain, hnone, hflag, hred, hn]
  exact ⟨rfl, rfl⟩

/-- Applying no edits is the identity, so a notification pass over listeners
that do not touch the registry leaves the store exactly at its
snapshot-point value. -/
theorem foldl_applyOps_pure [DecidableEq L] (ls : List L) (s : Store σ L) :
    ls.foldl (fun t l => applyOps ((fun _ => ([] : List (StoreOp L))) l) t) s = s := by
  induction ls generalizing s with
  | nil => rfl
  | cons x ls ih => exact ih s

/-- A notification pass preserves well-formedness and the dispatch flag. -/
theorem foldl_applyOps_spec [DecidableEq L] (eff : L → List (StoreOp L))
    (ls : List L) (s : Store σ L) (h : StoreWF s) :
    StoreWF (ls.foldl (fun t l => applyOps (eff l) t) s) ∧
    (ls.foldl (fun t l => applyOps (eff l) t) s).isDispatching = s.isDispatching := by
  induction ls generalizing s with
  | nil => exact ⟨h, rfl⟩
  | cons x ls ih =>
    obtain ⟨c1, c2, c3, c4⟩ := applyOps_spec (eff x) s h
    obtain ⟨d1, d2⟩ := ih (applyOps (eff x) s) c2
    exact ⟨d1, d2.trans c4⟩

/-- Successful dispatch with listeners that perform no registry edits. -/
theorem dispatch_ok_pure [DecidableEq L] (red : σ → Action τ → Except ε σ)
    (a : Action τ) (s : Store σ L) (ns : σ)
    (hwf : StoreWF s) (hflag : s.isDispatching = false)
    (hplain : isPlainObject a = true) (htype : a.type.isSome = true)
    (hred : red s.currentState a = .ok ns) :
    dispatch red (fun _ => []) a s
      = (.ok a,
         { currentState := ns, heap := s.heap, curId := s.nextId,
           nextId := s.nextId, isDispatching := false },
         nextListeners s) := by
  rw [dispatch_ok red (fun _ => []) a s ns hwf hflag hplain htype hred,
    foldl_applyOps_pure]

/-! ## Facts about the composer and the middleware applicator -/

/-- Unfolding the reduce of compose one combined function at a time. -/
theorem foldl_comp_step {α : Type} :
    ∀ (cs : List (α → α)) (a b : α → α) (x : α),
      cs.foldl (fun p q => fun y => p (q y)) (fun y => a (b y)) x
        = a (cs.foldl (fun p q => fun y => p (q y)) b x)
  | [], _, _, _ => rfl
  | c :: cs, a, b, x => foldl_comp_step cs a (fun y => b (c y)) x

/-- The composed function peels off its leftmost (outermost) layer. -/
theorem compose_cons {α : Type} (f : α → α) (fs : List (α → α)) (x : α) :
    compose (f :: fs) x = f (compose fs x) := by
  cases fs with
  | nil => rfl
  | cons g rest =>
    have h1 : compose (f :: g :: rest) x
        = rest.foldl (fun p q => fun y => p (q y)) (fun y => f (g y)) x := rfl
    have h2 : compose (g :: rest) x
        = rest.foldl (fun p q => fun y => p (q y)) g x := by
      cases rest <;> rfl
    rw [h1, foldl_comp_step rest f g x, h2]

/-- Unfolding the reduce of the variadic compose one combined function at a
time: every composed layer passes a single-element argument list on. -/
theorem foldlV_comp_step {V : Type} :
    ∀ (cs : List (List V → V)) (a b : List V → V) (x : List V),
      cs.foldl (fun p q => fun ys => p [q ys]) (fun ys => a [b ys]) x
        = a [cs.foldl (fun p q => fun ys => p [q ys]) b x]
  | [], _, _, _ => rfl
  | c :: cs, a, b, x => foldlV_comp_step cs a (fun ys => b [c ys]) x

/-- The variadic composed function peels off its leftmost layer, handing it
the single result of the composition of the rest. -/
theorem composeV_cons {V : Type} [Inhabited V] (f g : List V → V)
    (rest : List (List V → V)) (x : List V) :
    composeV (f :: g :: rest) x = f [composeV (g :: rest) x] := by
  have h1 : composeV (f :: g :: rest) x
      = rest.foldl (fun p q => fun ys => p [q ys]) (fun ys => f [g ys]) x := rfl
  have h2 : composeV (g :: rest) x
      = rest.foldl (fun p q => fun ys => p [q ys]) g x := by
    cases rest <;> rfl
  rw [h1, foldlV_comp_step rest f g x, h2]

/-- The enhanced dispatch peels off the first middleware: its next argument
is the dispatch produced by the remaining chain. -/
theorem applyMiddleware_cons {σ δ : Type} (m : MiddlewareAPI σ δ → δ → δ)
    (rest : List (MiddlewareAPI σ δ → δ → δ)) (api : MiddlewareAPI σ δ) (d : δ) :
    applyMiddleware (m :: rest) api d = m api (applyMiddleware rest api d) := by
  have h1 : applyMiddleware (m :: rest) api d
      = compose (m api :: rest.map (fun mw => mw api)) d := rfl
  rw [h1, compose_cons]
  rfl

/-- Onion-ordering trace: with one tagging middleware per identifier, the pre
events appear in list order, then the base dispatch runs, then the post
events appear in reverse list order. -/
theorem applyMiddleware_trace {σ : Type} (api : MiddlewareAPI σ TraceDispatch) :
    ∀ (ids : List Nat) (t0 : List TraceEvt),
      applyMiddleware (ids.map tagMiddleware) api baseDispatch t0
        = t0 ++ ids.map TraceEvt.pre ++ [TraceEvt.base]
          ++ (ids.reverse.map TraceEvt.post)
  | [], t0 => by simp [applyMiddleware, compose, baseDispatch]
  | i :: ids, t0 => by
    have hc := applyMiddleware_cons (tagMiddleware i) (ids.map tagMiddleware)
      api baseDispatch
    have happ : applyMiddleware ((i :: ids).map tagMiddleware) api baseDispatch t0
        = applyMiddleware (ids.map tagMiddleware) api baseDispatch
            (t0 ++ [TraceEvt.pre i]) ++ [TraceEvt.post i] := by
      rw [List.map_cons, hc]
      rfl
    rw [happ, applyMiddleware_trace api ids (t0 ++ [TraceEvt.pre i])]
    simp

/-- When the reducer raises, dispatch propagates the error and returns the
closure state unchanged: the finally clause has cleared the flag, the state
assignment never ran, and no listener was reached. -/
theorem dispatch_reducer_error [DecidableEq L] (red : σ → Action τ → Except ε σ)
    (eff : L → List (StoreOp L)) (a : Action τ) (s : Store σ L) (e : ε)
    (hflag : s.isDispatching = false)
    (hplain : isPlainObject a = true) (htype : a.type.isSome = true)
    (hred : red s.currentState a = .error e) :
    dispatch red eff a s = (.error (.reducerRaised e), s, []) := by
  have hnone : a.type.isNone = false := by
    cases h2 : a.type with
    | none => rw [h2] at htype; simp at htype
    | some v => simp [h2]
  obtain ⟨cs, hp, ci, ni, fl⟩ := s
  cases fl with
  | false => simp [dispatch, hplain, hnone, hred]
  | true => simp at hflag

/-! ## Concrete instances used by the witnesses -/

/-- A plain-object action with a defined type, as a witness input. -/
def actW : Action Nat :=
  { typeofIsObject := true, isNull := false, protoChain := [0], type := some 1 }

/-- A reducer adding the action type to the state, as a witness input. -/
def redW : Nat → Action Nat → Except Unit Nat :=
  fun st a => .ok (st + a.type.getD 0)

/-- An always-raising reducer, as a witness input. -/
def redFail : Nat → Action Nat → Except Unit Nat :=
  fun _ _ => .error ()

/-- An idle store with two registered listeners and aliased references. -/
def storeW : Store Nat Nat :=
  { currentState := 0, heap := [[7, 8]], curId := 0, nextId := 0,
    isDispatching := false }

/-- The same store caught in the middle of a reducer invocation. -/
def storeDispW : Store Nat Nat :=
  { currentState := 0, heap := [[7, 8]], curId := 0, nextId := 0,
    isDispatching := true }

/-! ## The claims -/

/--
C1: for every store without an enhancer, every state and every accepted
action, a successful dispatch sets the stored state to the reducer's value —
a subsequent getState returns exactly that value — then invokes every
listener of the taken snapshot exactly once, in registration order, and
finally returns the very action value that was passed in.
-/
theorem dispatch_success_contract [DecidableEq L]
    (red : σ → Action τ → Except ε σ) (a : Action τ) (s : Store σ L) (ns : σ)
    (hwf : StoreWF s) (hflag : s.isDispatching = false)
    (hplain : isPlainObject a = true) (htype : a.type.isSome = true)
    (hred : red s.currentState a = .ok ns) :
    (dispatch red (fun _ => []) a s).1 = .ok a ∧
    (dispatch red (fun _ => []) a s).2.1.currentState = ns ∧
    getState (dispatch red (fun _ => []) a s).2.1 = .ok ns ∧
    (dispatch red (fun _ => []) a s).2.2 = nextListeners s ∧
    currentListeners (dispatch red (fun _ => []) a s).2.1 = nextListeners s := by
  rw [dispatch_ok_pure red a s ns hwf hflag hplain htype hred]
  exact ⟨rfl, rfl, rfl, rfl, rfl⟩

/-- Witness for C1: dispatching adds the action type to the state and invokes
the two registered listeners in registration order. -/
theorem dispatch_success_contract_witness :
    StoreWF storeW ∧
    (dispatch redW (fun _ => []) actW storeW).1 = .ok actW ∧
    (dispatch redW (fun _ => []) actW storeW).2.1.currentState = 1 ∧
    (dispatch redW (fun _ => []) actW storeW).2.2 = [7, 8] := by
  have h := dispatch_success_contract redW actW storeW 1 (by decide) rfl rfl rfl rfl
  refine ⟨by decide, h.1, h.2.1, ?_⟩
  rw [h.2.2.2.1]
  rfl

/--
C2: the listener-snapshot (copy-on-write) invariant.  A registry edit made by
a listener while a dispatch D1 is notifying never mutates the array D1
iterates (the first edit after an alias copies the array first), so the
listeners invoked during D1 are exactly the pre-edit snapshot, whatever edits
the listeners perform; all the edits are applied to the next-listener
registry, and the next dispatch D2 notifies exactly that edited registry.
-/
theorem listener_snapshot_invariant [DecidableEq L]
    (red : σ → Action τ → Except ε σ) (eff : L → List (StoreOp L))
    (a : Action τ) (s : Store σ L) (ns : σ)
    (hwf : StoreWF s) (hflag : s.isDispatching = false)
    (hplain : isPlainObject a = true) (htype : a.type.isSome = true)
    (hred : red s.currentState a = .ok ns) :
    (∀ (op : StoreOp L) (t : Store σ L), StoreWF t →
        currentListeners (applyOp op t) = currentListeners t ∧
        (applyOp op t).curId = t.curId) ∧
    (dispatch red eff a s).2.2 = nextListeners s ∧
    dispatch red eff a s
      = (.ok a,
         (nextListeners s).foldl (fun t l => applyOps (eff l) t)
           { currentState := ns, heap := s.heap, curId := s.nextId,
             nextId := s.nextId, isDispatching := false },
         nextListeners s) ∧
    (∀ (red2 : σ → Action τ → Except ε σ) (a2 : Action τ) (ns2 : σ),
        isPlainObject a2 = true → a2.type.isSome = true →
        red2 (dispatch red eff a s).2.1.currentState a2 = .ok ns2 →
        (dispatch red2 (fun _ => []) a2 (dispatch red eff a s).2.1).2.2
          = nextListeners (dispatch red eff a s).2.1) := by
  have hmain := dispatch_ok red eff a s ns hwf hflag hplain htype hred
  have hwf3 : StoreWF ({ currentState := ns, heap := s.heap, curId := s.nextId,
                         nextId := s.nextId, isDispatching := false } : Store σ L) :=
    ⟨hwf.2, hwf.2⟩
  obtain ⟨hwfF, hflagF⟩ := foldl_applyOps_spec eff (nextListeners s) _ hwf3
  refine ⟨?_, ?_, hmain, ?_⟩
  · intro op t ht
    exact ⟨(applyOp_spec op t ht).1, (applyOp_spec op t ht).2.2.1⟩
  · rw [hmain]
  · intro red2 a2 ns2 hp2 ht2 hr2
    rw [hmain] at hr2 ⊢
    rw [dispatch_ok_pure red2 a2 _ ns2 hwfF hflagF hp2 ht2 hr2]

/-- Witness for C2: during the dispatch, listener 7 subscribes listener 9 and
listener 8 unsubscribes listener 7; the invoked listeners are still the
frozen snapshot, and the edited registry is the one the next dispatch
notifies. -/
theorem listener_snapshot_invariant_witness :
    StoreWF storeW ∧
    dispatch redW
        (fun l => if l = 7 then [StoreOp.sub 9]
                  else if l = 8 then [StoreOp.unsub 7] else [])
        actW storeW
      = (.ok actW,
         { currentState := 1, heap := [[7, 8], [8, 9]], curId := 0, nextId := 1,
           isDispatching := false },
         [7, 8]) := by
  have h := listener_snapshot_invariant redW
    (fun l => if l = 7 then [StoreOp.sub 9]
              else if l = 8 then [StoreOp.unsub 7] else [])
    actW storeW 1 (by decide) rfl rfl rfl rfl
  refine ⟨by decide, ?_⟩
  rw [h.2.2.1]
  rfl

/--
C3: reducer-failure atomicity.  When the reducer raises, the error propagates
to the caller of dispatch, the dispatch flag is nevertheless reset to false —
a later getState succeeds — and the stored state is unchanged: state is
updated only on normal reducer return.
-/
theorem reducer_failure_atomicity [DecidableEq L]
    (red : σ → Action τ → Except ε σ) (eff : L → List (StoreOp L))
    (a : Action τ) (s : Store σ L) (e : ε)
    (hflag : s.isDispatching = false)
    (hplain : isPlainObject a = true) (htype : a.type.isSome = true)
    (hred : red s.currentState a = .error e) :
    dispatch red eff a s = (.error (.reducerRaised e), s, []) ∧
    (dispatch red eff a s).2.1.isDispatching = false ∧
    (dispatch red eff a s).2.1.currentState = s.currentState ∧
    getState (dispatch red eff a s).2.1 = .ok s.currentState := by
  have hmain := dispatch_reducer_error red eff a s e hflag hplain htype hred
  refine ⟨hmain, ?_, ?_, ?_⟩
  · rw [hmain]
    exact hflag
  · rw [hmain]
  · rw [hmain]
    simp [getState, hflag]

/-- Witness for C3: a raising reducer propagates its error and leaves the
store exactly as it was. -/
theorem reducer_failure_atomicity_witness :
    redFail storeW.currentState actW = .error () ∧
    dispatch redFail (fun _ => []) actW storeW
      = (.error (.reducerRaised ()), storeW, []) :=
  ⟨rfl, (reducer_failure_atomicity redFail (fun _ => []) actW storeW ()
      rfl rfl rfl rfl).1⟩

/--
C10: when the reducer raises, no listener is invoked for that dispatch: the
snapshot assignment and the notification loop run only after a normal reducer
return, so a failing dispatch has no listener-visible effect — the listener
heap and both references are untouched.
-/
theorem reducer_failure_no_notification [DecidableEq L]
    (red : σ → Action τ → Except ε σ) (eff : L → List (StoreOp L))
    (a : Action τ) (s : Store σ L) (e : ε)
    (hflag : s.isDispatching = false)
    (hplain : isPlainObject a = true) (htype : a.type.isSome = true)
    (hred : red s.currentState a = .error e) :
    (dispatch red eff a s).2.2 = [] ∧
    (dispatch red eff a s).2.1.heap = s.heap ∧
    (dispatch red eff a s).2.1.curId = s.curId ∧
    (dispatch red eff a s).2.1.nextId = s.nextId ∧
    currentListeners (dispatch red eff a s).2.1 = currentListeners s := by
  have hmain := dispatch_reducer_error red eff a s e hflag hplain htype hred
  rw [hmain]
  exact ⟨rfl, rfl, rfl, rfl, rfl⟩

/-- Witness for C10: the failing dispatch invokes no listener and leaves the
listener heap intact. -/
theorem reducer_failure_no_notification_witness :
    (dispatch redFail (fun _ => []) actW storeW).2.2 = [] ∧
    (dispatch redFail (fun _ => []) actW storeW).2.1.heap = [[7, 8]] := by
  have h := reducer_failure_no_notification redFail (fun _ => []) actW storeW ()
    rfl rfl rfl rfl
  exact ⟨h.1, h.2.1⟩

/--
C4: the reentrancy guard.  While the dispatch flag is set, getState,
subscribe, unsubscribe (on a live subscription) and dispatch each fail
immediately with an error; while it is clear, each succeeds — dispatch in
particular can no longer fail with the reducers-may-not-dispatch error.
-/
theorem reentrancy_guard [DecidableEq L]
    (s : Store σ L) (l : L) (red : σ → Action τ → Except ε σ)
    (eff : L → List (StoreOp L)) (a : Action τ) :
    (s.isDispatching = true →
       getState s = .error .getStateWhileDispatching ∧
       subscribe l s = .error .subscribeWhileDispatching ∧
       unsubscribe true l s = .error .unsubscribeWhileDispatching ∧
       (dispatch red eff a s).1.isOk = false ∧
       (isPlainObject a = true → a.type.isSome = true →
          (dispatch red eff a s).1 = .error .reducersMayNotDispatch)) ∧
    (s.isDispatching = false →
       getState s = .ok s.currentState ∧
       subscribe l s = .ok (subscribeCore l s) ∧
       unsubscribe true l s = .ok (false, unsubscribeCore l s) ∧
       (dispatch red eff a s).1 ≠ .error .reducersMayNotDispatch) := by
  constructor
  · intro h
    refine ⟨by simp [getState, h], by simp [subscribe, h],
      by simp [unsubscribe, h], ?_, ?_⟩
    · by_cases hp : isPlainObject a = false
      · simp [dispatch, hp, Except.isOk, Except.toBool]
      · by_cases ht : a.type.isNone = true
        · simp [dispatch, hp, ht, Except.isOk, Except.toBool]
        · simp [dispatch, hp, ht, h, Except.isOk, Except.toBool]
    · intro hp ht
      have hnone : a.type.isNone = false := by
        cases h2 : a.type with
        | none => rw [h2] at ht; simp at ht
        | some v => simp [h2]
      simp [dispatch, hp, hnone, h]
  · intro h
    refine ⟨by simp [getState, h], by simp [subscribe, h],
      by simp [unsubscribe, h], ?_⟩
    by_cases hp : isPlainObject a = false
    · simp [dispatch, hp]
    · by_cases ht : a.type.isNone = true
      · simp [dispatch, hp, ht]
      · cases hr : red s.currentState a with
        | error e2 => simp [dispatch, hp, ht, h, hr]
        | ok ns => simp [dispatch, hp, ht, h, hr]

/-- Witness for C4: every operation fails on the mid-dispatch store and
succeeds on the idle one. -/
theorem reentrancy_guard_witness :
    getState storeDispW = .error .getStateWhileDispatching ∧
    subscribe 9 storeDispW = .error .subscribeWhileDispatching ∧
    unsubscribe true 7 storeDispW = .error .unsubscribeWhileDispatching ∧
    (dispatch redW (fun _ => []) actW storeDispW).1
      = .error .reducersMayNotDispatch ∧
    getState storeW = .ok 0 ∧
    (dispatch redW (fun _ => []) actW storeW).1
      ≠ .error .reducersMayNotDispatch := by
  have h1 := (reentrancy_guard storeDispW 9 redW (fun _ => []) actW).1 rfl
  have h1b := (reentrancy_guard storeDispW 7 redW (fun _ => []) actW).1 rfl
  have h2 := (reentrancy_guard storeW 9 redW (fun _ => []) actW).2 rfl
  exact ⟨h1.1, h1.2.1, h1b.2.2.1, h1.2.2.2.2 rfl rfl, h2.1, h2.2.2.2⟩

/--
C7: construction without an enhancer performs exactly one internal dispatch
of the reserved INIT action before returning: the store handed out has state
reducer(preloadedState, INIT-action), an empty listener registry and a clear
dispatch flag.
-/
theorem createStore_initializes [DecidableEq L] (red : σ → Action τ → Except ε σ)
    (preloadedState st0 : σ) (initType : τ)
    (hred : red preloadedState (initAction initType) = .ok st0) :
    createStore (L := L) red preloadedState initType
      = .ok { currentState := st0, heap := [[]], curId := 0, nextId := 0,
              isDispatching := false } ∧
    getState ({ currentState := st0, heap := [[]], curId := 0, nextId := 0,
                isDispatching := false } : Store σ L) = .ok st0 ∧
    currentListeners ({ currentState := st0, heap := [[]], curId := 0,
                        nextId := 0, isDispatching := false } : Store σ L) = [] ∧
    nextListeners ({ currentState := st0, heap := [[]], curId := 0,
                     nextId := 0, isDispatching := false } : Store σ L) = [] := by
  have hd := dispatch_ok_pure red (initAction initType)
    ({ currentState := preloadedState, heap := [[]], curId := 0, nextId := 0,
       isDispatching := false } : Store σ L) st0
    (by show (0 : Nat) < 1 ∧ (0 : Nat) < 1
        exact ⟨Nat.zero_lt_one, Nat.zero_lt_one⟩)
    rfl rfl rfl hred
  refine ⟨?_, rfl, rfl, rfl⟩
  simp [createStore, hd]

/-- Witness for C7: constructing with preloaded state 5 dispatches INIT once
and stores the reducer's value for it. -/
theorem createStore_initializes_witness :
    redW 5 (initAction 100) = .ok 105 ∧
    (createStore redW 5 100 : Except (DispatchErr Unit) (Store Nat Nat))
      = .ok { currentState := 105, heap := [[]], curId := 0, nextId := 0,
              isDispatching := false } :=
  ⟨rfl, (createStore_initializes redW 5 105 100 rfl).1⟩

/-- A non-plain action: a non-null object with two prototype links, as a
witness input. -/
def badAct : Action Nat :=
  { typeofIsObject := true, isNull := false, protoChain := [0, 1], type := some 1 }

/-- A plain action whose type field is undefined, as a witness input. -/
def untypedAct : Action Nat :=
  { typeofIsObject := true, isNull := false, protoChain := [0], type := none }

/--
C8: action-shape validation.  dispatch fails — leaving the store untouched
and notifying no listener — whenever the action is not a plain data record (a
non-null object whose prototype chain has exactly one link) or its type field
is undefined; for a plain record with a defined type it fails for neither of
those two reasons.
-/
theorem action_shape_validation [DecidableEq L]
    (red : σ → Action τ → Except ε σ) (eff : L → List (StoreOp L))
    (a : Action τ) (s : Store σ L) :
    (a.protoChain.Nodup →
       (isPlainObject a = true ↔
          a.typeofIsObject = true ∧ a.isNull = false ∧ a.protoChain.length = 1)) ∧
    (isPlainObject a = false →
       dispatch red eff a s = (.error .actionNotPlainObject, s, [])) ∧
    (isPlainObject a = true → a.type = none →
       dispatch red eff a s = (.error .actionTypeUndefined, s, [])) ∧
    (isPlainObject a = true → a.type.isSome = true →
       (dispatch red eff a s).1 ≠ .error .actionNotPlainObject ∧
       (dispatch red eff a s).1 ≠ .error .actionTypeUndefined) := by
  refine ⟨?_, ?_, ?_, ?_⟩
  · intro hnd
    cases hto : a.typeofIsObject with
    | false => simp [isPlainObject, hto]
    | true =>
      cases hnl : a.isNull with
      | true => simp [isPlainObject, hto, hnl]
      | false =>
        cases hpc : a.protoChain with
        | nil => simp [isPlainObject, hto, hnl, hpc]
        | cons p rest =>
          cases rest with
          | nil => simp [isPlainObject, hto, hnl, hpc]
          | cons q rest2 =>
            rw [hpc] at hnd
            have hpn : p ∉ q :: rest2 := (List.nodup_cons.mp hnd).1
            have hne : (q :: rest2 : List Nat) ≠ [] := by simp
            obtain ⟨z, hz⟩ :=
              Option.isSome_iff_exists.mp (List.getLast?_isSome.mpr hne)
            have hzmem : z ∈ q :: rest2 := List.mem_of_getLast?_eq_some hz
            have hpz : p ≠ z := fun hh => hpn (hh ▸ hzmem)
            simp [isPlainObject, hto, hnl, hpc, hz, hpz]
  · intro hpl
    simp [dispatch, hpl]
  · intro hpl htn
    simp [dispatch, hpl, htn]
  · intro hpl ht
    have hnone : a.type.isNone = false := by
      cases h2 : a.type with
      | none => rw [h2] at ht; simp at ht
      | some v => simp [h2]
    by_cases hfl : s.isDispatching
    · simp [dispatch, hpl, hnone, hfl]
    · cases hr : red s.currentState a with
      | error e2 => simp [dispatch, hpl, hnone, hfl, hr]
      | ok ns => simp [dispatch, hpl, hnone, hfl, hr]

/-- Witness for C8: a two-link action is rejected as non-plain, an undefined
type is rejected, and the well-shaped action passes both checks. -/
theorem action_shape_validation_witness :
    (isPlainObject badAct = true ↔
       badAct.typeofIsObject = true ∧ badAct.isNull = false ∧
       badAct.protoChain.length = 1) ∧
    dispatch redW (fun _ => []) badAct storeW
      = (.error .actionNotPlainObject, storeW, []) ∧
    dispatch redW (fun _ => []) untypedAct storeW
      = (.error .actionTypeUndefined, storeW, []) ∧
    (dispatch redW (fun _ => []) actW storeW).1 ≠ .error .actionNotPlainObject := by
  have h1 := action_shape_validation redW (fun _ => []) badAct storeW
  have h2 := action_shape_validation redW (fun _ => []) untypedAct storeW
  have h3 := action_shape_validation redW (fun _ => []) actW storeW
  exact ⟨h1.1 (by decide), h1.2.1 rfl, h2.2.2.1 rfl rfl, (h3.2.2.2 rfl rfl).1⟩

/--
C9: the unsubscribe contract.  A first invocation while not dispatching
clears the subscription flag and removes exactly the first entry equal to the
listener (by identity) from the next-list, after the copy-on-write check, so
the current snapshot is untouched; any later invocation is a no-op with no
error and no removal; a first invocation while the dispatch flag is set fails
with an error.
-/
theorem unsubscribe_contract [DecidableEq L] (l : L) (s : Store σ L)
    (hwf : StoreWF s) :
    (s.isDispatching = false → l ∈ nextListeners s →
       unsubscribe true l s = .ok (false, unsubscribeCore l s) ∧
       nextListeners (unsubscribeCore l s) = (nextListeners s).erase l ∧
       currentListeners (unsubscribeCore l s) = currentListeners s) ∧
    (∀ t : Store σ L, unsubscribe false l t = .ok (false, t)) ∧
    (s.isDispatching = true →
       unsubscribe true l s = .error .unsubscribeWhileDispatching) := by
  refine ⟨?_, ?_, ?_⟩
  · intro hflag hmem
    obtain ⟨c1, c2, c3, c4, c5, c6⟩ := unsubscribeCore_spec l s hwf
    exact ⟨by simp [unsubscribe, hflag],
      c2.trans (spliceOut_of_mem l (nextListeners s) hmem), c1⟩
  · intro t
    rfl
  · intro hflag
    simp [unsubscribe, hflag]

/-- Witness for C9: unsubscribing listener 7 once removes exactly it from the
next-list, a second call is a no-op, and a first call while dispatching
fails. -/
theorem unsubscribe_contract_witness :
    StoreWF storeW ∧ (7 : Nat) ∈ nextListeners storeW ∧
    unsubscribe true 7 storeW = .ok (false, unsubscribeCore 7 storeW) ∧
    nextListeners (unsubscribeCore 7 storeW) = [8] ∧
    unsubscribe false 7 (unsubscribeCore 7 storeW)
      = .ok (false, unsubscribeCore 7 storeW) ∧
    unsubscribe true 7 storeDispW = .error .unsubscribeWhileDispatching := by
  have h := unsubscribe_contract 7 storeW (by decide)
  have hD := unsubscribe_contract 7 storeDispW (by decide)
  have h1 := h.1 rfl (by decide)
  refine ⟨by decide, by decide, h1.1, ?_, h.2.1 _, hD.2.2 rfl⟩
  rw [h1.2.1]
  decide

/--
C5: middleware onion ordering.  The enhanced dispatch built by applyMiddleware
from the chain links is the first link applied to the composition of the
rest, the innermost next being the raw store dispatch; consequently, with one
tracing middleware per identifier, the pre-next code runs in list order and
the post-next code in reverse list order around the base dispatch.
-/
theorem applyMiddleware_onion {σ2 δ : Type} (m : MiddlewareAPI σ2 δ → δ → δ)
    (middlewares : List (MiddlewareAPI σ2 δ → δ → δ))
    (middlewareAPI : MiddlewareAPI σ2 δ) (storeDispatch : δ)
    (apiT : MiddlewareAPI Nat TraceDispatch) (ids : List Nat)
    (t0 : List TraceEvt) :
    applyMiddleware ([] : List (MiddlewareAPI σ2 δ → δ → δ)) middlewareAPI
        storeDispatch = storeDispatch ∧
    applyMiddleware (m :: middlewares) middlewareAPI storeDispatch
      = m middlewareAPI (applyMiddleware middlewares middlewareAPI storeDispatch) ∧
    applyMiddleware (ids.map tagMiddleware) apiT baseDispatch t0
      = t0 ++ ids.map TraceEvt.pre ++ [TraceEvt.base]
        ++ (ids.reverse.map TraceEvt.post) :=
  ⟨rfl, applyMiddleware_cons m middlewares middlewareAPI storeDispatch,
   applyMiddleware_trace apiT ids t0⟩

/--
C6: compose semantics.  compose of no functions behaves as the identity,
compose of one function is that function, and compose of two or more
functions feeds the composition of the tail as the single argument of the
head — so compose(f, g, h)(x, y) equals f(g(h(x, y))), only the rightmost
function seeing more than one argument.
-/
theorem compose_semantics {V : Type} [Inhabited V] (x y : V)
    (f g h : List V → V) (rest : List (List V → V)) (args : List V) :
    composeV ([] : List (List V → V)) [x] = x ∧
    composeV [f] = f ∧
    composeV (f :: g :: rest) args = f [composeV (g :: rest) args] ∧
    composeV [f, g, h] [x, y] = f [g [h [x, y]]] := by
  refine ⟨rfl, rfl, composeV_cons f g rest args, ?_⟩
  rw [composeV_cons f g [h] [x, y], composeV_cons g h [] [x, y]]
  rfl

end Redux
